import Mathlib

/-!
Shallow embedding of the awair-monitor pipeline (src/src/main.rs) and
verification of its specification claims.

The program periodically computes the latest complete five-minute window,
fetches sensor telemetry over HTTP, decodes the JSON payload into typed
data points, transforms each data point into an InfluxDB write query, and
publishes the queries with bounded concurrency.
-/

/-- Embedding of the `MeasurementType` enum (src/src/main.rs lines 45-94). -/
inductive MeasurementType where
  | Temperature
  | Humidity
  | CO2
  | VOC
  | Dust
  | PM25
deriving DecidableEq, Fintype, Repr

/-- Embedding of `MeasurementType::field_name` (src/src/main.rs lines 96-107). -/
def MeasurementType.field_name : MeasurementType → String
  | .Temperature => "temperature"
  | .Humidity => "humidity"
  | .CO2 => "CO2"
  | .VOC => "VOC"
  | .Dust => "dust"
  | .PM25 => "PM25"

/-- Embedding of serde's deserializer for `MeasurementType`: the
`#[serde(rename = ...)]` attributes map each wire name to its variant and any
other string is a decode error (modelled as `none`). -/
def decodeMeasurementType (s : String) : Option MeasurementType :=
  if s = "temp" then some .Temperature
  else if s = "humid" then some .Humidity
  else if s = "co2" then some .CO2
  else if s = "voc" then some .VOC
  else if s = "dust" then some .Dust
  else if s = "pm25" then some .PM25
  else none

/-- Embedding of the decoded `Measurement` struct (src/src/main.rs lines 109-114). -/
structure Measurement where
  kind : MeasurementType
  value : Float

/-- Embedding of the decoded `DataPoint` struct (src/src/main.rs lines 116-122);
the timestamp is modelled as epoch seconds. -/
structure DataPoint where
  timestamp : Int
  score : Float
  sensors : List Measurement
  indices : List Measurement

/-- Embedding of the decoded `Response` struct (src/src/main.rs lines 124-127). -/
structure Response where
  data : List DataPoint

/-- Pre-decoding view of one `{"comp": ..., "value": ...}` JSON object. -/
structure RawMeasurement where
  comp : String
  value : Float

/-- Pre-decoding view of one JSON data-point object. -/
structure RawDataPoint where
  timestamp : Int
  score : Float
  sensors : List RawMeasurement
  indices : List RawMeasurement

/-- Pre-decoding view of the JSON response body. -/
structure RawResponse where
  data : List RawDataPoint

/-- Serde decoding of one measurement: the `comp` string must be a supported
wire name, otherwise the whole decode fails. -/
def decodeMeasurement (r : RawMeasurement) : Option Measurement :=
  (decodeMeasurementType r.comp).map fun k => ⟨k, r.value⟩

/-- Element-wise decoding of a JSON array: every element must decode,
otherwise the whole array fails to decode (serde's sequence semantics). -/
def decodeList {α β : Type} (f : α → Option β) : List α → Option (List β)
  | [] => some []
  | a :: l => do
      let b ← f a
      let bs ← decodeList f l
      pure (b :: bs)

/-- Serde decoding of one data point: every sensor and index entry must
decode, otherwise the whole decode fails. -/
def decodeDataPoint (r : RawDataPoint) : Option DataPoint := do
  let sensors ← decodeList decodeMeasurement r.sensors
  let indices ← decodeList decodeMeasurement r.indices
  pure ⟨r.timestamp, r.score, sensors, indices⟩

/-- Serde decoding of the whole payload (the `response.json::<Response>()`
call at src/src/main.rs line 223): every data point must decode. -/
def decodeResponse (r : RawResponse) : Option Response :=
  (decodeList decodeDataPoint r.data).map Response.mk

/-- Embedding of the `Config` struct (src/src/main.rs lines 21-43). -/
structure Config where
  api_key : String
  device_type : String
  device_id : String
  influx_db_url : String
  influx_db_username : Option String
  influx_db_password : String
  influx_db_database : String

/-- Model of `influxdb::Client`: url, database, and optional basic-auth
credentials. -/
structure InfluxClient where
  url : String
  database : String
  auth : Option (String × String)

/-- Model of `influxdb::Client::new`: no authentication attached. -/
def InfluxClient.new (url database : String) : InfluxClient :=
  ⟨url, database, none⟩

/-- Model of `influxdb::Client::with_auth`. -/
def InfluxClient.with_auth (c : InfluxClient) (username password : String) :
    InfluxClient :=
  { c with auth := some (username, password) }

/-- Embedding of the client construction in `post_to_influxdb`
(src/src/main.rs lines 156-162): auth is attached only when a username is
configured, using the configured password. -/
def mkInfluxClient (config : Config) : InfluxClient :=
  let influxdb_client := InfluxClient.new config.influx_db_url config.influx_db_database
  match config.influx_db_username with
  | some username => influxdb_client.with_auth username config.influx_db_password
  | none => influxdb_client

/-- Model of `influxdb::WriteQuery`: timestamp, measurement name, ordered
field list and ordered tag list. -/
structure WriteQuery where
  timestamp : Int
  measurement : String
  fields : List (String × Float)
  tags : List (String × String)
deriving Repr

/-- Model of `influxdb::WriteQuery::new`. -/
def WriteQuery.new (ts : Int) (m : String) : WriteQuery :=
  ⟨ts, m, [], []⟩

/-- Model of `influxdb::WriteQuery::add_field`: appends one field. -/
def WriteQuery.add_field (q : WriteQuery) (n : String) (v : Float) : WriteQuery :=
  { q with fields := q.fields ++ [(n, v)] }

/-- Model of `influxdb::WriteQuery::add_tag`: appends one tag. -/
def WriteQuery.add_tag (q : WriteQuery) (n v : String) : WriteQuery :=
  { q with tags := q.tags ++ [(n, v)] }

/-- Embedding of the per-data-point transformation inside `post_to_influxdb`
(src/src/main.rs lines 166-185): a fresh query on measurement "awair" gets
the "score" field, one ".sensor" field per sensor measurement, one ".index"
field per index measurement, and the device_id tag. -/
def transform (measurement : DataPoint) (device_id : String) : WriteQuery :=
  let q := WriteQuery.new measurement.timestamp "awair"
  let q := q.add_field "score" measurement.score
  let q := measurement.sensors.foldl
    (fun q m => q.add_field (m.kind.field_name ++ ".sensor") m.value) q
  let q := measurement.indices.foldl
    (fun q m => q.add_field (m.kind.field_name ++ ".index") m.value) q
  q.add_tag "device_id" device_id

/-- Embedding of `latest_complete_five_second_period` (src/src/main.rs lines
142-150), parameterised by the value `now` read from the wall clock, in epoch
seconds. `Duration::minutes(5).num_seconds()` is 300 and Rust's `%` on `i64`
is the truncating remainder, `Int.tmod`. -/
def latest_complete_five_second_period (now : Int) : Int × Int :=
  let duration : Int := 300
  let timestamp := now
  let upper_timestamp := timestamp - Int.tmod timestamp duration
  let upper := upper_timestamp
  let lower := upper - duration
  (lower, upper)

/-- Model of the HTTP response the telemetry API returns: a status code and
a body (already viewed as a raw JSON tree). -/
structure HttpResponse where
  status : Nat
  body : RawResponse

/-- Errors of the fetch-and-decode stage of `run` (src/src/main.rs lines
219-223): `invalidResponse` models the `InvalidResponse` error carrying the
status, `decodeError` models a serde decode failure. -/
inductive FetchError where
  | invalidResponse (status : Nat)
  | decodeError
deriving DecidableEq, Repr

/-- Embedding of the response handling in `run` (src/src/main.rs lines
219-225): a non-200 status yields `InvalidResponse` without touching the
body; on 200 the body is decoded and each data point is transformed. -/
def handleResponse (response : HttpResponse) (device_id : String) :
    Except FetchError (List WriteQuery) :=
  if response.status ≠ 200 then .error (.invalidResponse response.status)
  else
    match decodeResponse response.body with
    | none => .error .decodeError
    | some payload => .ok (payload.data.map (transform · device_id))

namespace Publish

/-- One record handed to the publisher: the write query paired with the
outcome its write would have against the (mocked) database — `none` for
success, `some e` for failure with error `e`. -/
abbrev Rec := WriteQuery × Option String

/-- State of the `try_for_each_concurrent(10, ...)` combinator
(src/src/main.rs lines 187-196) executing over a fixed record sequence:
records not yet dispatched, writes in flight, writes completed
successfully, in-flight writes dropped when an error was observed, writes
completed with an error, and the error the combinator has returned with. -/
structure PubState where
  pending : List Rec
  inflight : List Rec
  done : List Rec
  cancelled : List Rec
  failed : List Rec
  halted : Option String

/-- Initial combinator state: every record pending, nothing dispatched. -/
def initState (recs : List Rec) : PubState :=
  ⟨recs, [], [], [], [], none⟩

/-- Small-step semantics of `try_for_each_concurrent` with limit 10: while
no error has been observed, a pending record may be dispatched when fewer
than 10 writes are in flight, and any in-flight write may complete. A write
completing with an error makes the combinator return that error
immediately, dropping (cancelling) the remaining in-flight writes and never
dispatching the pending ones. After an error has been observed no step is
enabled. -/
inductive Step : PubState → PubState → Prop where
  | dispatch (r : Rec) (p fl d c f : List Rec) (h : fl.length < 10) :
      Step ⟨r :: p, fl, d, c, f, none⟩ ⟨p, r :: fl, d, c, f, none⟩
  | completeOk (w : WriteQuery) (p fl₁ fl₂ d c f : List Rec) :
      Step ⟨p, fl₁ ++ (w, none) :: fl₂, d, c, f, none⟩
        ⟨p, fl₁ ++ fl₂, (w, none) :: d, c, f, none⟩
  | completeErr (w : WriteQuery) (e : String) (p fl₁ fl₂ d c f : List Rec) :
      Step ⟨p, fl₁ ++ (w, some e) :: fl₂, d, c, f, none⟩
        ⟨p, [], d, (fl₁ ++ fl₂) ++ c, (w, some e) :: f, some e⟩

/-- Reachability of a combinator state from the initial state of a record
sequence. -/
def Reach (recs : List Rec) (s : PubState) : Prop :=
  Relation.ReflTransGen Step (initState recs) s

/-- Result the combinator has produced in a state: the returned error once
halted, success once everything is dispatched and completed, nothing while
it is still running. -/
def resultOf (s : PubState) : Option (Except String Unit) :=
  match s.halted, s.pending, s.inflight with
  | some e, _, _ => some (.error e)
  | none, [], [] => some (.ok ())
  | _, _, _ => none

/-- All records a state accounts for, in every rôle. -/
def allOf (s : PubState) : List Rec :=
  s.pending ++ s.inflight ++ s.done ++ s.cancelled ++ s.failed

/-- A step never creates or destroys records, it only moves them between
rôles. -/
lemma step_mem {s s' : PubState} (h : Step s s') (x : Rec) :
    x ∈ allOf s' ↔ x ∈ allOf s := by
  cases h <;> simp [allOf] <;> tauto

/-- Every step requires that no error has been observed yet. -/
lemma step_halted {s s' : PubState} (h : Step s s') : s.halted = none := by
  cases h <;> rfl

/-- Invariant maintained by every reachable combinator state. -/
structure Inv (recs : List Rec) (s : PubState) : Prop where
  mem_all : ∀ x, x ∈ allOf s ↔ x ∈ recs
  done_ok : ∀ x ∈ s.done, x.2 = none
  no_halt : s.halted = none → s.cancelled = [] ∧ s.failed = []
  halt_failed : ∀ e, s.halted = some e → ∃ x ∈ s.failed, x.2 = some e
  inflight_le : s.inflight.length ≤ 10

lemma inv_init (recs : List Rec) : Inv recs (initState recs) := by
  refine ⟨fun x => ?_, ?_, ?_, ?_, ?_⟩ <;> simp [initState, allOf]

lemma inv_step {recs : List Rec} {s s' : PubState} (hinv : Inv recs s)
    (h : Step s s') : Inv recs s' := by
  obtain ⟨hmem, hdone, hnh, hhf, hlen⟩ := hinv
  refine ⟨fun x => (step_mem h x).trans (hmem x), ?_, ?_, ?_, ?_⟩
  · cases h with
    | dispatch r p fl d c f hl => exact hdone
    | completeOk w p fl₁ fl₂ d c f =>
        intro x hx
        rcases List.mem_cons.mp hx with hx | hx
        · subst hx; rfl
        · exact hdone x hx
    | completeErr w e p fl₁ fl₂ d c f => exact hdone
  · cases h with
    | dispatch r p fl d c f hl => exact hnh
    | completeOk w p fl₁ fl₂ d c f => exact hnh
    | completeErr w e p fl₁ fl₂ d c f => intro hc; cases hc
  · cases h with
    | dispatch r p fl d c f hl => exact hhf
    | completeOk w p fl₁ fl₂ d c f => exact hhf
    | completeErr w e p fl₁ fl₂ d c f =>
        intro e' he'
        cases he'
        exact ⟨(w, some e), List.mem_cons_self _ _, rfl⟩
  · cases h with
    | dispatch r p fl d c f hl => simp only [List.length_cons]; omega
    | completeOk w p fl₁ fl₂ d c f => simp at hlen ⊢; omega
    | completeErr w e p fl₁ fl₂ d c f => simp

/-- Every reachable state satisfies the invariant. -/
lemma reach_inv {recs : List Rec} {s : PubState} (h : Reach recs s) :
    Inv recs s := by
  induction h with
  | refl => exact inv_init recs
  | tail _ hstep ih => exact inv_step ih hstep

/-- When every record's write succeeds, the combinator can run to a
successful terminal state from any state that has nothing in flight. -/
lemma progress_ok (p d : List Rec) (hp : ∀ r ∈ p, r.2 = none) :
    ∃ d', Relation.ReflTransGen Step ⟨p, [], d, [], [], none⟩
      ⟨[], [], d', [], [], none⟩ := by
  induction p generalizing d with
  | nil => exact ⟨d, .refl⟩
  | cons r p ih =>
      obtain ⟨w, o⟩ := r
      have ho : o = none := hp (w, o) (List.mem_cons_self _ _)
      subst ho
      obtain ⟨d', hd'⟩ := ih ((w, none) :: d) (fun r hr => hp r (List.mem_cons_of_mem _ hr))
      refine ⟨d', .head (Step.dispatch (w, none) p [] d [] [] (by simp)) (.head ?_ hd')⟩
      exact Step.completeOk w p [] [] d [] []

end Publish

/-- The six supported wire names, in source order. -/
def wireNames : List String := ["temp", "humid", "co2", "voc", "dust", "pm25"]

lemma decodeMeasurementType_eq_none {c : String} (h : c ∉ wireNames) :
    decodeMeasurementType c = none := by
  simp only [wireNames, List.mem_cons, List.not_mem_nil, or_false, not_or] at h
  obtain ⟨h1, h2, h3, h4, h5, h6⟩ := h
  simp [decodeMeasurementType, h1, h2, h3, h4, h5, h6]

lemma decodeList_eq_none {α β : Type} {f : α → Option β} {l : List α} {x : α}
    (hx : x ∈ l) (hf : f x = none) : decodeList f l = none := by
  induction l with
  | nil => cases hx
  | cons a l ih =>
      rcases List.mem_cons.mp hx with rfl | hx
      · simp [decodeList, hf]
      · cases ha : f a with
        | none => simp [decodeList, ha]
        | some b => simp [decodeList, ha, ih hx]

lemma decodeDataPoint_eq_none {dp : RawDataPoint} {m : RawMeasurement}
    (hm : m ∈ dp.sensors ∨ m ∈ dp.indices) (hc : decodeMeasurement m = none) :
    decodeDataPoint dp = none := by
  rcases hm with hm | hm
  · simp [decodeDataPoint, decodeList_eq_none hm hc]
  · cases hs : decodeList decodeMeasurement dp.sensors with
    | none => simp [decodeDataPoint, hs]
    | some l => simp [decodeDataPoint, hs, decodeList_eq_none hm hc]

lemma foldl_add_field_fields (l : List Measurement) (q : WriteQuery)
    (nameF : Measurement → String) :
    (l.foldl (fun q m => q.add_field (nameF m) m.value) q).fields
      = q.fields ++ l.map fun m => (nameF m, m.value) := by
  induction l generalizing q with
  | nil => simp
  | cons a l ih =>
      rw [List.foldl_cons, ih]
      simp [WriteQuery.add_field]

lemma foldl_add_field_tags (l : List Measurement) (q : WriteQuery)
    (nameF : Measurement → String) :
    (l.foldl (fun q m => q.add_field (nameF m) m.value) q).tags = q.tags := by
  induction l generalizing q with
  | nil => rfl
  | cons a l ih =>
      rw [List.foldl_cons, ih]
      rfl

/-- C1: for every instant `now` at or after the epoch (amended from "every
wall-clock instant": for instants before the epoch Rust's truncating `%`
makes `upper` exceed `now`), the window calculator with period 300 returns
`(lower, upper)` with `upper = now - (now mod 300)`, `lower = upper - 300`,
`upper ≡ 0 (mod 300)` and `upper ≤ now < upper + 300`. -/
theorem C1_window_contract (now : Int) (h : 0 ≤ now) :
    (latest_complete_five_second_period now).2 = now - Int.tmod now 300 ∧
    (latest_complete_five_second_period now).1 =
      (latest_complete_five_second_period now).2 - 300 ∧
    (latest_complete_five_second_period now).2 % 300 = 0 ∧
    (latest_complete_five_second_period now).2 ≤ now ∧
    now < (latest_complete_five_second_period now).2 + 300 := by
  have ht : Int.tmod now 300 = now % 300 := Int.tmod_eq_emod h (by norm_num)
  show now - Int.tmod now 300 = now - Int.tmod now 300 ∧
    now - Int.tmod now 300 - 300 = now - Int.tmod now 300 - 300 ∧
    (now - Int.tmod now 300) % 300 = 0 ∧
    now - Int.tmod now 300 ≤ now ∧ now < now - Int.tmod now 300 + 300
  rw [ht]
  refine ⟨rfl, rfl, ?_, ?_, ?_⟩ <;> omega

/-- C1 witness at `now = 451`. -/
theorem C1_window_witness :
    (0 : Int) ≤ 451 ∧
    ((latest_complete_five_second_period 451).2 = 451 - Int.tmod 451 300 ∧
     (latest_complete_five_second_period 451).1 =
       (latest_complete_five_second_period 451).2 - 300 ∧
     (latest_complete_five_second_period 451).2 % 300 = 0 ∧
     (latest_complete_five_second_period 451).2 ≤ 451 ∧
     (451 : Int) < (latest_complete_five_second_period 451).2 + 300) :=
  ⟨by decide, C1_window_contract 451 (by decide)⟩

/-- C1 counterexample to the unrestricted claim: at the pre-epoch instant
`now = -1` the computed upper bound is `0`, which is not `≤ now`. -/
theorem C1_window_counterexample :
    (latest_complete_five_second_period (-1)).2 = 0 ∧
    ¬ ((latest_complete_five_second_period (-1)).2 ≤ -1) := by decide

/-- C8: two instants in the same 300-second alignment bucket (equal values
of `now - (now mod 300)`) produce the identical `(lower, upper)` window. -/
theorem C8_window_idempotent (n₁ n₂ : Int)
    (h : n₁ - Int.tmod n₁ 300 = n₂ - Int.tmod n₂ 300) :
    latest_complete_five_second_period n₁ = latest_complete_five_second_period n₂ := by
  show (n₁ - Int.tmod n₁ 300 - 300, n₁ - Int.tmod n₁ 300)
      = (n₂ - Int.tmod n₂ 300 - 300, n₂ - Int.tmod n₂ 300)
  rw [h]

/-- C8 witness at the instants 10 and 20, both in the bucket of 0. -/
theorem C8_window_witness :
    (10 : Int) - Int.tmod 10 300 = 20 - Int.tmod 20 300 ∧
    latest_complete_five_second_period 10 = latest_complete_five_second_period 20 :=
  ⟨by decide, C8_window_idempotent 10 20 (by decide)⟩

/-- C7: decoding is total on the six supported wire names with the stated
kinds, injective over them, and the canonical field names of the six kinds
are pairwise distinct. -/
theorem C7_decode_total_injective :
    decodeMeasurementType "temp" = some .Temperature ∧
    decodeMeasurementType "humid" = some .Humidity ∧
    decodeMeasurementType "co2" = some .CO2 ∧
    decodeMeasurementType "voc" = some .VOC ∧
    decodeMeasurementType "dust" = some .Dust ∧
    decodeMeasurementType "pm25" = some .PM25 ∧
    (∀ s₁ ∈ wireNames, ∀ s₂ ∈ wireNames, ∀ k : MeasurementType,
        decodeMeasurementType s₁ = some k → decodeMeasurementType s₂ = some k →
        s₁ = s₂) ∧
    (∀ k₁ k₂ : MeasurementType, k₁.field_name = k₂.field_name → k₁ = k₂) := by
  decide

/-- C7 witness: the injectivity component applied at "temp" and "temp". -/
theorem C7_decode_witness :
    "temp" ∈ wireNames ∧ ("temp" : String) = "temp" :=
  ⟨by decide, C7_decode_total_injective.2.2.2.2.2.2.1 "temp" (by decide) "temp"
    (by decide) .Temperature (by decide) (by decide)⟩

/-- C4: a response with any status other than 200 produces
`InvalidResponse` carrying that status, for every body — so the body is
never decoded. -/
theorem C4_non_200_invalid_response (status : Nat) (body : RawResponse)
    (device_id : String) (h : status ≠ 200) :
    handleResponse ⟨status, body⟩ device_id = .error (.invalidResponse status) := by
  simp [handleResponse, h]

/-- C4 witness at status 401 with a non-trivial body. -/
theorem C4_non_200_witness :
    401 ≠ 200 ∧
    handleResponse ⟨401, ⟨[⟨0, 80.0, [⟨"temp", 21.5⟩], []⟩]⟩⟩ "dev"
      = .error (.invalidResponse 401) :=
  ⟨by decide, C4_non_200_invalid_response 401 _ "dev" (by decide)⟩

/-- C10: when no database username is configured, the constructed client
carries no authentication, and the configured password has no effect on the
client. -/
theorem C10_no_username_no_auth (config : Config)
    (h : config.influx_db_username = none) :
    (mkInfluxClient config).auth = none ∧
    ∀ p : String,
      mkInfluxClient { config with influx_db_password := p } = mkInfluxClient config := by
  constructor
  · simp [mkInfluxClient, h, InfluxClient.new]
  · intro p
    simp [mkInfluxClient, h, InfluxClient.new]

/-- C10 witness at a concrete configuration with a non-empty password. -/
theorem C10_no_username_witness :
    (Config.mk "k" "t" "d" "http://db" none "secret" "awair").influx_db_username
      = none ∧
    (mkInfluxClient (Config.mk "k" "t" "d" "http://db" none "secret" "awair")).auth
      = none :=
  ⟨rfl, (C10_no_username_no_auth _ rfl).1⟩

/-- C2: a payload containing any sensor or index entry whose `comp` string
is outside the six supported wire names fails to decode as a whole, and on
a 200 response the run yields a decode error, so no data point from the
payload is transformed into a write query. -/
theorem C2_unknown_comp_fails (payload : RawResponse) (dp : RawDataPoint)
    (m : RawMeasurement) (device_id : String)
    (hdp : dp ∈ payload.data) (hm : m ∈ dp.sensors ∨ m ∈ dp.indices)
    (hc : m.comp ∉ wireNames) :
    decodeResponse payload = none ∧
    handleResponse ⟨200, payload⟩ device_id = .error .decodeError := by
  have hkind : decodeMeasurement m = none := by
    simp [decodeMeasurement, decodeMeasurementType_eq_none hc]
  have hdpn : decodeDataPoint dp = none := decodeDataPoint_eq_none hm hkind
  have hresp : decodeResponse payload = none := by
    simp [decodeResponse, decodeList_eq_none hdp hdpn]
  exact ⟨hresp, by simp [handleResponse, hresp]⟩

/-- A measurement entry with the unsupported wire name "xyz". -/
def rawBadMeasurement : RawMeasurement := ⟨"xyz", 1.0⟩

/-- A data point whose sensor list contains the unsupported entry. -/
def rawBadDataPoint : RawDataPoint := ⟨0, 80.0, [rawBadMeasurement], []⟩

/-- A payload containing the bad data point. -/
def rawBadResponse : RawResponse := ⟨[rawBadDataPoint]⟩

/-- C2 witness on the concrete payload with the unsupported comp "xyz". -/
theorem C2_unknown_comp_witness :
    rawBadDataPoint ∈ rawBadResponse.data ∧
    (rawBadMeasurement ∈ rawBadDataPoint.sensors ∨
      rawBadMeasurement ∈ rawBadDataPoint.indices) ∧
    rawBadMeasurement.comp ∉ wireNames ∧
    decodeResponse rawBadResponse = none ∧
    handleResponse ⟨200, rawBadResponse⟩ "dev" = .error .decodeError := by
  have h := C2_unknown_comp_fails rawBadResponse rawBadDataPoint rawBadMeasurement
    "dev" (List.mem_singleton.mpr rfl) (Or.inl (List.mem_singleton.mpr rfl))
    (by decide)
  exact ⟨List.mem_singleton.mpr rfl, Or.inl (List.mem_singleton.mpr rfl),
    by decide, h.1, h.2⟩

lemma transform_eq (dp : DataPoint) (d : String) :
    transform dp d =
      (dp.indices.foldl (fun q m => q.add_field (m.kind.field_name ++ ".index") m.value)
        (dp.sensors.foldl (fun q m => q.add_field (m.kind.field_name ++ ".sensor") m.value)
          ((WriteQuery.new dp.timestamp "awair").add_field "score" dp.score))).add_tag
        "device_id" d := rfl

lemma add_tag_fields (q : WriteQuery) (n v : String) :
    (q.add_tag n v).fields = q.fields := rfl

lemma add_tag_tags (q : WriteQuery) (n v : String) :
    (q.add_tag n v).tags = q.tags ++ [(n, v)] := rfl

/-- C3: the write query produced from a data point has exactly
`1 + N + M` fields — "score" first, then one "<canonical>.sensor" field
per sensor measurement and one "<canonical>.index" field per index
measurement, each carrying the measurement's value — and its only tag is
`device_id` set to the device id. -/
theorem C3_transform_completeness (dp : DataPoint) (device_id : String) :
    (transform dp device_id).fields
      = ("score", dp.score)
          :: ((dp.sensors.map fun m => (m.kind.field_name ++ ".sensor", m.value))
            ++ (dp.indices.map fun m => (m.kind.field_name ++ ".index", m.value))) ∧
    (transform dp device_id).fields.length
      = 1 + dp.sensors.length + dp.indices.length ∧
    (transform dp device_id).tags = [("device_id", device_id)] := by
  have hf : (transform dp device_id).fields
      = ("score", dp.score)
          :: ((dp.sensors.map fun m => (m.kind.field_name ++ ".sensor", m.value))
            ++ (dp.indices.map fun m => (m.kind.field_name ++ ".index", m.value))) := by
    rw [transform_eq, add_tag_fields, foldl_add_field_fields, foldl_add_field_fields]
    simp [WriteQuery.add_field, WriteQuery.new]
  refine ⟨hf, ?_, ?_⟩
  · rw [hf]
    simp [List.length_append]
    omega
  · rw [transform_eq, add_tag_tags, foldl_add_field_tags, foldl_add_field_tags]
    rfl

namespace Publish

lemma resultOf_ok_iff {s : PubState} :
    resultOf s = some (.ok ()) ↔
      s.halted = none ∧ s.pending = [] ∧ s.inflight = [] := by
  obtain ⟨p, fl, d, c, f, h⟩ := s
  cases h <;> cases p <;> cases fl <;> simp [resultOf]

lemma resultOf_error_iff {s : PubState} {e : String} :
    resultOf s = some (.error e) ↔ s.halted = some e := by
  obtain ⟨p, fl, d, c, f, h⟩ := s
  cases h <;> cases p <;> cases fl <;> simp [resultOf]

/-- Every step consumes a pending or an in-flight record. -/
lemma step_nonempty {s s' : PubState} (h : Step s s') :
    s.pending ≠ [] ∨ s.inflight ≠ [] := by
  cases h with
  | dispatch r p fl d c f hl => left; simp
  | completeOk w p fl₁ fl₂ d c f => right; simp
  | completeErr w e p fl₁ fl₂ d c f => right; simp

end Publish

/-- C5 (amended): publish returns success iff every record's write
succeeds — a success result implies every record completed successfully,
and when all writes succeed a successful result is reachable; an error
result is the failure of one of the records (the first one observed, since
after a failure is observed no further step occurs); no step is enabled
once a failure has been observed, so in-flight writes are cancelled rather
than allowed to finish and no undispatched record is ever written. -/
theorem C5_publish_failure_policy (recs : List Publish.Rec) :
    (∀ s, Publish.Reach recs s → Publish.resultOf s = some (.ok ()) →
        ∀ r ∈ recs, r.2 = none) ∧
    ((∀ r ∈ recs, r.2 = none) →
        ∃ s, Publish.Reach recs s ∧ Publish.resultOf s = some (.ok ())) ∧
    (∀ s e, Publish.Reach recs s → Publish.resultOf s = some (.error e) →
        ∃ r ∈ recs, r.2 = some e) ∧
    (∀ s s', Publish.Step s s' → s.halted = none) := by
  refine ⟨?_, ?_, ?_, fun s s' h => Publish.step_halted h⟩
  · intro s hs hres r hr
    obtain ⟨hh, hp, hfl⟩ := Publish.resultOf_ok_iff.mp hres
    have inv := Publish.reach_inv hs
    obtain ⟨hc, hf⟩ := inv.no_halt hh
    have hr' : r ∈ Publish.allOf s := (inv.mem_all r).mpr hr
    rw [Publish.allOf, hp, hfl, hc, hf] at hr'
    simp only [List.nil_append, List.append_nil] at hr'
    exact inv.done_ok r hr'
  · intro hall
    obtain ⟨d', hd'⟩ := Publish.progress_ok recs [] hall
    exact ⟨⟨[], [], d', [], [], none⟩, hd', rfl⟩
  · intro s e hs hres
    have hh := Publish.resultOf_error_iff.mp hres
    have inv := Publish.reach_inv hs
    obtain ⟨x, hxf, hx2⟩ := inv.halt_failed e hh
    refine ⟨x, (inv.mem_all x).mp ?_, hx2⟩
    simp [Publish.allOf, hxf]

/-- A sample write query used by the publish witnesses. -/
def sampleQuery : WriteQuery :=
  ⟨0, "awair", [("score", 1.0)], [("device_id", "dev")]⟩

/-- C5 witness: with a single succeeding record, a successful result is
reachable. -/
theorem C5_publish_witness :
    (∀ r ∈ ([(sampleQuery, none)] : List Publish.Rec), r.2 = none) ∧
    ∃ s, Publish.Reach [(sampleQuery, none)] s ∧
      Publish.resultOf s = some (.ok ()) :=
  ⟨by simp, (C5_publish_failure_policy [(sampleQuery, none)]).2.1 (by simp)⟩

/-- A write query whose write fails in the counterexample run. -/
def failQuery : WriteQuery :=
  ⟨0, "awair", [("score", 0.0)], [("device_id", "dev")]⟩

/-- A write query whose write would succeed in the counterexample run. -/
def okQuery : WriteQuery :=
  ⟨1, "awair", [("score", 1.0)], [("device_id", "dev")]⟩

/-- C5 counterexample to the claim as stated: an execution in which the
failing write completes while the other write is still in flight; the
combinator returns the error with the in-flight write cancelled, never
completed — it is not "allowed to finish". -/
theorem C5_publish_counterexample :
    Publish.Reach [(failQuery, some "boom"), (okQuery, none)]
      ⟨[], [], [], [(okQuery, none)], [(failQuery, some "boom")], some "boom"⟩ ∧
    Publish.resultOf
      ⟨[], [], [], [(okQuery, none)], [(failQuery, some "boom")], some "boom"⟩
      = some (.error "boom") ∧
    (okQuery, none) ∉
      (⟨[], [], [], [(okQuery, none)], [(failQuery, some "boom")], some "boom"⟩ :
        Publish.PubState).done := by
  refine ⟨?_, rfl, by simp⟩
  have h1 : Publish.Step (Publish.initState [(failQuery, some "boom"), (okQuery, none)])
      ⟨[(okQuery, none)], [(failQuery, some "boom")], [], [], [], none⟩ :=
    Publish.Step.dispatch (failQuery, some "boom") [(okQuery, none)] [] [] [] []
      (by simp)
  have h2 : Publish.Step ⟨[(okQuery, none)], [(failQuery, some "boom")], [], [], [], none⟩
      ⟨[], [(okQuery, none), (failQuery, some "boom")], [], [], [], none⟩ :=
    Publish.Step.dispatch (okQuery, none) [] [(failQuery, some "boom")] [] [] []
      (by simp)
  have h3 : Publish.Step ⟨[], [(okQuery, none), (failQuery, some "boom")], [], [], [], none⟩
      ⟨[], [], [], [(okQuery, none)], [(failQuery, some "boom")], some "boom"⟩ :=
    Publish.Step.completeErr failQuery "boom" [] [(okQuery, none)] [] [] [] []
  exact Relation.ReflTransGen.head h1
    (Relation.ReflTransGen.head h2 (Relation.ReflTransGen.single h3))

/-- C6: in every state the publisher can reach, at most 10 writes are in
flight against the database client. -/
theorem C6_bounded_concurrency (recs : List Publish.Rec) (s : Publish.PubState)
    (h : Publish.Reach recs s) : s.inflight.length ≤ 10 :=
  (Publish.reach_inv h).inflight_le

/-- A batch of 25 records for the bounded-concurrency witness. -/
def recs25 : List Publish.Rec := List.replicate 25 (sampleQuery, none)

/-- C6 witness on the batch of 25 records. -/
theorem C6_bounded_witness :
    Publish.Reach recs25 (Publish.initState recs25) ∧
    (Publish.initState recs25).inflight.length ≤ 10 :=
  ⟨Relation.ReflTransGen.refl,
    C6_bounded_concurrency recs25 _ Relation.ReflTransGen.refl⟩

/-- C9: a 200 response with an empty data array decodes to no records, and
publishing an empty record sequence performs no database write and ends in
the successful result, so the run as a whole succeeds. -/
theorem C9_empty_records (device_id : String) :
    handleResponse ⟨200, ⟨[]⟩⟩ device_id = .ok [] ∧
    (∀ s, Publish.Reach ([] : List Publish.Rec) s → s = Publish.initState []) ∧
    Publish.resultOf (Publish.initState ([] : List Publish.Rec)) = some (.ok ()) ∧
    (Publish.initState ([] : List Publish.Rec)).done = [] := by
  refine ⟨?_, ?_, rfl, rfl⟩
  · simp [handleResponse, decodeResponse, decodeList]
  · intro s hs
    induction hs with
    | refl => rfl
    | tail hr hstep ih =>
        subst ih
        rcases Publish.step_nonempty hstep with h | h <;>
          simp [Publish.initState] at h

/-- C9 witness: the initial state of the empty record sequence. -/
theorem C9_empty_witness :
    Publish.initState ([] : List Publish.Rec) = Publish.initState [] ∧
    handleResponse ⟨200, ⟨[]⟩⟩ "dev" = .ok [] :=
  ⟨(C9_empty_records "dev").2.1 _ Relation.ReflTransGen.refl,
    (C9_empty_records "dev").1⟩
